import Mathlib

/-!
# A shallow embedding of `tricksy_battle.py`

This file embeds the Tricksy Battle card game (a two-player terminal
trick-taking game) in Lean 4 and proves properties of the embedded
definitions.  Each definition mirrors a function or code region of the
Python source:

* `Card`, `Suit`, `Rank`, `VALUE_MAP` — the `Card` class (lines 8-28);
* `draw`, `deal`                      — the `Deck` methods (lines 30-44);
* `choose`                            — `prompt_card_choice` (lines 53-66):
  the re-prompt loop guarantees that the returned card is an element of
  `valid_choices`, selected at a user-chosen valid index; an empty
  candidate list never yields a card (the Python loop would re-prompt
  forever), modelled as `none`;
* `followCandidates`                  — the candidate set of
  `get_follow_card` (lines 73-82);
* `determine_winner`                  — lines 84-93;
* `early_termination`                 — lines 95-97;
* `dictInsert` / `dictGet` / `dictIncr` — the Python `dict` used for
  `score` (`{p1.name: 0, p2.name: 0}` and `score[winner.name] += 1`);
  `dictGet` returns `0` for a missing key, which never happens in states
  produced by `main` since the dict is initialised with both names;
* `GameState`, `playTrick`, `redealCheck`, `playRound`, `runLoop` — the
  `main` game loop (lines 99-157), with the two interactive card choices
  of each round supplied as a list of index pairs;
* `final_report`                      — the end-of-game summary branch
  (lines 161-171);
* `resolveName`                       — `input(...).strip() or default`
  (lines 102-103).

Cards in play are pairwise distinct (the deck holds 48 distinct
suit-rank pairs), so `List.erase` (first structurally equal occurrence)
coincides with Python's identity-based `list.remove` of the chosen card.
-/

namespace TricksyBattle

/-- The four suits, in the order of `Card.SUITS`. -/
inductive Suit where
  | Hearts | Diamonds | Clubs | Spades
deriving DecidableEq, Repr

/-- The twelve ranks (Kings removed), in the order of `Card.RANKS`. -/
inductive Rank where
  | R2 | R3 | R4 | R5 | R6 | R7 | R8 | R9 | R10 | Jack | Queen | Ace
deriving DecidableEq, Repr

/-- Position of a rank in the `Card.RANKS` list. -/
def rankIndex : Rank → Nat
  | .R2 => 0 | .R3 => 1 | .R4 => 2 | .R5 => 3 | .R6 => 4 | .R7 => 5
  | .R8 => 6 | .R9 => 7 | .R10 => 8 | .Jack => 9 | .Queen => 10 | .Ace => 11

/-- `Card.VALUE_MAP`: `{rank: i+2 for i, rank in enumerate(RANKS)}`. -/
def VALUE_MAP (r : Rank) : Nat := rankIndex r + 2

/-- A playing card: `suit` and `rank`; `value` is derived below. -/
structure Card where
  suit : Suit
  rank : Rank
deriving DecidableEq, Repr

/-- `self.value = Card.VALUE_MAP[rank]`. -/
def Card.value (c : Card) : Nat := VALUE_MAP c.rank

/-- `Deck.draw`: `self.cards.pop() if self.cards else None`.  Returns the
drawn card (if any) together with the remaining deck. -/
def draw (d : List Card) : Option Card × List Card :=
  match d.getLast? with
  | none => (none, d)
  | some c => (some c, d.dropLast)

/-- `Deck.deal(n)`: `[self.cards.pop() for _ in range(n)]`; popping an
empty list raises in Python, modelled as `none`. -/
def deal : List Card → Nat → Option (List Card × List Card)
  | d, 0 => some ([], d)
  | d, n + 1 =>
    match d.getLast? with
    | none => none
    | some c => (deal d.dropLast n).map fun p => (c :: p.1, p.2)

/-- `prompt_card_choice`: the user picks a valid index into
`valid_choices` and the selected element is returned; `i` ranges over
all of `Nat` and is reduced mod the length, so every element is
selectable.  An empty list can never produce a card. -/
def choose (l : List Card) (i : Nat) : Option Card :=
  if h : l = [] then none
  else some (l.get ⟨i % l.length, Nat.mod_lt _ (List.length_pos.mpr h)⟩)

/-- The candidate set of `get_follow_card`:
`same_suit = [c for c in player.hand if c.suit == lead_suit]`,
the whole hand when that filter is empty. -/
def followCandidates (hand : List Card) (lead_suit : Suit) : List Card :=
  if (hand.filter fun c => decide (c.suit = lead_suit)).isEmpty then hand
  else hand.filter fun c => decide (c.suit = lead_suit)

/-- `determine_winner(lead_player, lead_card, follow_player, follow_card)`. -/
def determine_winner {P : Type} (lead_player : P) (lead_card : Card)
    (follow_player : P) (follow_card : Card) : P :=
  if follow_card.suit = lead_card.suit then
    if follow_card.value > lead_card.value then follow_player else lead_player
  else
    lead_player

/-- `early_termination(score1, score2)`. -/
def early_termination (score1 score2 : Nat) : Bool :=
  (decide (score1 ≥ 9) && decide (score2 ≥ 1)) ||
  (decide (score2 ≥ 9) && decide (score1 ≥ 1))

/-- Python `dict` insertion `d[k] = v`: overwrite the existing binding
for `k`, else append a new one. -/
def dictInsert (d : List (String × Nat)) (k : String) (v : Nat) :
    List (String × Nat) :=
  if d.any fun p => decide (p.1 = k) then
    d.map fun p => if p.1 = k then (k, v) else p
  else
    d ++ [(k, v)]

/-- Python `d[k]` lookup; `main` only looks up keys it initialised, so
the `0` default is never reached from `main`'s states. -/
def dictGet (d : List (String × Nat)) (k : String) : Nat :=
  match d.find? fun p => decide (p.1 = k) with
  | some p => p.2
  | none => 0

/-- `score[winner.name] += 1`. -/
def dictIncr (d : List (String × Nat)) (k : String) : List (String × Nat) :=
  dictInsert d k (dictGet d k + 1)

/-- `input(...).strip() or default` for the two name prompts. -/
def resolveName (inp : String) (default : String) : String :=
  if inp.trim = "" then default else inp.trim

/-- The mutable state of `main`'s game loop. -/
structure GameState where
  name1 : String
  name2 : String
  hand1 : List Card
  hand2 : List Card
  deck : List Card
  score : List (String × Nat)
  leaderIs1 : Bool
  deals_done : Nat
  round_num : Nat
deriving DecidableEq, Repr

/-- `score = {p1.name: 0, p2.name: 0}`. -/
def initScore (n1 n2 : String) : List (String × Nat) :=
  dictInsert (dictInsert [] n1 0) n2 0

/-- The state right after `main`'s setup: hands and deck are whatever
the shuffle dealt (any disjoint split of the 48 cards with 8 cards per
hand), `round_num = 0`, `deals_done = 0`, random initial leader. -/
def initGame (n1 n2 : String) (h1 h2 d : List Card) (leaderIs1 : Bool) :
    GameState :=
  { name1 := n1, name2 := n2, hand1 := h1, hand2 := h2, deck := d,
    score := initScore n1 n2, leaderIs1 := leaderIs1,
    deals_done := 0, round_num := 0 }

/-- The current leader's hand. -/
def leaderHand (s : GameState) : List Card :=
  if s.leaderIs1 then s.hand1 else s.hand2

/-- The current follower's hand. -/
def followerHand (s : GameState) : List Card :=
  if s.leaderIs1 then s.hand2 else s.hand1

/-- `score[p1.name]`, the first player's score. -/
def scoreP1 (s : GameState) : Nat := dictGet s.score s.name1

/-- `score[p2.name]`, the second player's score. -/
def scoreP2 (s : GameState) : Nat := dictGet s.score s.name2

/-- One round of the loop body up to and including the deck reveal
(lines 122-146): increment the round counter, leader leads a card
(removed from their hand), follower answers from the suit-constrained
candidates (removed from their hand), the trick winner scores and
leads next, and one card is popped from the deck and ignored. -/
def playTrick (s : GameState) (ci cj : Nat) : Option GameState :=
  (choose (leaderHand s) ci).bind fun lead_card =>
  (choose (followCandidates (followerHand s) lead_card.suit) cj).map
    fun follow_card =>
      let winnerIs1 :=
        determine_winner s.leaderIs1 lead_card (!s.leaderIs1) follow_card
      let lhand := (leaderHand s).erase lead_card
      let fhand := (followerHand s).erase follow_card
      { s with
        round_num := s.round_num + 1
        hand1 := if s.leaderIs1 then lhand else fhand
        hand2 := if s.leaderIs1 then fhand else lhand
        score := dictIncr s.score (if winnerIs1 then s.name1 else s.name2)
        leaderIs1 := winnerIs1
        deck := (draw s.deck).2 }

/-- The guard of the mid-game re-deal (line 149). -/
def redealCond (s : GameState) : Bool :=
  decide (s.hand1.length = 4) && decide (s.hand2.length = 4) &&
  decide (s.deals_done < 2)

/-- Lines 149-153: when both hands hold exactly 4 cards and fewer than
two re-deals have happened, extend each hand with 4 freshly dealt
cards and bump the counter. -/
def redealCheck (s : GameState) : Option GameState :=
  if redealCond s then
    (deal s.deck 4).bind fun p1 =>
    (deal p1.2 4).map fun p2 =>
      { s with hand1 := s.hand1 ++ p1.1, hand2 := s.hand2 ++ p2.1,
               deck := p2.2, deals_done := s.deals_done + 1 }
  else some s

/-- One full iteration of the `while` body (lines 121-156). -/
def playRound (s : GameState) (ci cj : Nat) : Option GameState :=
  (playTrick s ci cj).bind redealCheck

/-- The `while` guard (line 121):
`round_num < 16 and not early_termination(score[p1.name], score[p2.name])`. -/
def gameLoopCond (s : GameState) : Bool :=
  decide (s.round_num < 16) && !early_termination (scoreP1 s) (scoreP2 s)

/-- The `while` loop of `main`, fed the per-round choice indices from a
list.  Returns the final state and the number of rounds played, or
`none` when the interaction would not complete (choices exhausted, an
empty candidate list, or deck exhaustion during a re-deal). -/
def runLoop : GameState → List (Nat × Nat) → Option (GameState × Nat)
  | s, [] => if gameLoopCond s then none else some (s, 0)
  | s, (ci, cj) :: rest =>
    if gameLoopCond s then
      match playRound s ci cj with
      | none => none
      | some s' =>
        match runLoop s' rest with
        | none => none
        | some (t, k) => some (t, k + 1)
    else some (s, 0)

/-- The end-of-game outcome line (lines 161-171). -/
def final_report (n1 n2 : String) (s1 s2 : Nat) : String :=
  if s1 = 0 ∧ s2 = 16 then
    n1 ++ (" shot the moon and wins 17-" ++ (toString s2 ++ "!"))
  else if s2 = 0 ∧ s1 = 16 then
    n2 ++ (" shot the moon and wins 17-" ++ (toString s1 ++ "!"))
  else if s1 > s2 then n1 ++ " wins!"
  else if s2 > s1 then n2 ++ " wins!"
  else "It's a tie!"

/-! ## Helper lemmas about the embedded operations -/

/-- Any card produced by `prompt_card_choice` is an element of the
candidate list. -/
theorem choose_mem {l : List Card} {i : Nat} {c : Card}
    (h : choose l i = some c) : c ∈ l := by
  unfold choose at h
  split at h
  · cases h
  · injection h with h
    subst h
    exact List.get_mem ..

/-- `choose` succeeds exactly on non-empty candidate lists. -/
theorem choose_isSome {l : List Card} {i : Nat} (h : l ≠ []) :
    (choose l i).isSome := by
  simp [choose, h]

/-- A successful `deal d n` returns `n` cards and shrinks the deck by
`n`. -/
theorem deal_spec :
    ∀ (n : Nat) (d : List Card) (p : List Card × List Card),
      deal d n = some p → p.1.length = n ∧ p.2.length + n = d.length := by
  intro n
  induction n with
  | zero =>
    intro d p h
    unfold deal at h
    injection h with h
    subst h
    simp
  | succ n ih =>
    intro d p h
    unfold deal at h
    cases hg : d.getLast? with
    | none => rw [hg] at h; cases h
    | some c =>
      rw [hg] at h
      rcases Option.map_eq_some'.mp h with ⟨q, hq, hp⟩
      subst hp
      obtain ⟨h1, h2⟩ := ih d.dropLast q hq
      have hd : d ≠ [] := by
        intro he; rw [he] at hg; simp at hg
      have hlen : 1 ≤ d.length := List.length_pos.mpr hd
      refine ⟨by simp [h1], ?_⟩
      rw [List.length_dropLast] at h2
      simp only []
      omega

/-- `playTrick` succeeds exactly when both card choices succeed. -/
theorem playTrick_eq_some {s : GameState} {ci cj : Nat} {t : GameState} :
    playTrick s ci cj = some t ↔
      ∃ lc, choose (leaderHand s) ci = some lc ∧
        ∃ fc, choose (followCandidates (followerHand s) lc.suit) cj = some fc ∧
          t = { s with
                round_num := s.round_num + 1
                hand1 := if s.leaderIs1 then (leaderHand s).erase lc
                         else (followerHand s).erase fc
                hand2 := if s.leaderIs1 then (followerHand s).erase fc
                         else (leaderHand s).erase lc
                score := dictIncr s.score
                  (if determine_winner s.leaderIs1 lc (!s.leaderIs1) fc
                   then s.name1 else s.name2)
                leaderIs1 := determine_winner s.leaderIs1 lc (!s.leaderIs1) fc
                deck := (draw s.deck).2 } := by
  constructor
  · intro h
    rcases Option.bind_eq_some.mp h with ⟨lc, hlc, h2⟩
    rcases Option.map_eq_some'.mp h2 with ⟨fc, hfc, ht⟩
    exact ⟨lc, hlc, fc, hfc, ht.symm⟩
  · rintro ⟨lc, hlc, fc, hfc, rfl⟩
    unfold playTrick
    rw [hlc]
    simp only [Option.some_bind]
    rw [hfc]
    rfl

/-- `playTrick` keeps the player names, increments the round counter,
and does not touch the re-deal counter. -/
theorem playTrick_fields {s : GameState} {ci cj : Nat} {t : GameState}
    (h : playTrick s ci cj = some t) :
    t.name1 = s.name1 ∧ t.name2 = s.name2 ∧
    t.round_num = s.round_num + 1 ∧ t.deals_done = s.deals_done := by
  rcases playTrick_eq_some.mp h with ⟨lc, _, fc, _, rfl⟩
  exact ⟨rfl, rfl, rfl, rfl⟩

/-- `playTrick` adds one point to the trick winner's score entry, the
winner being one of the two player names. -/
theorem playTrick_score {s : GameState} {ci cj : Nat} {t : GameState}
    (h : playTrick s ci cj = some t) :
    ∃ b : Bool, t.score = dictIncr s.score (if b then s.name1 else s.name2) := by
  rcases playTrick_eq_some.mp h with ⟨lc, _, fc, _, rfl⟩
  exact ⟨determine_winner s.leaderIs1 lc (!s.leaderIs1) fc, rfl⟩

/-- When its guard fails, `redealCheck` is the identity. -/
theorem redealCheck_id {t : GameState} (h : redealCond t = false) :
    redealCheck t = some t := by
  simp [redealCheck, h]

/-- `redealCheck` never changes names, round counter or score. -/
theorem redealCheck_fields {t u : GameState} (h : redealCheck t = some u) :
    u.name1 = t.name1 ∧ u.name2 = t.name2 ∧ u.round_num = t.round_num ∧
    u.score = t.score ∧ u.leaderIs1 = t.leaderIs1 := by
  unfold redealCheck at h
  split at h
  · rcases Option.bind_eq_some.mp h with ⟨p1, hp1, h2⟩
    rcases Option.map_eq_some'.mp h2 with ⟨p2, hp2, hu⟩
    subst hu
    exact ⟨rfl, rfl, rfl, rfl, rfl⟩
  · injection h with h
    subst h
    exact ⟨rfl, rfl, rfl, rfl, rfl⟩

/-- A successful `redealCheck` with a true guard deals 4 cards to each
hand and bumps the re-deal counter. -/
theorem redealCheck_redeal {t u : GameState} (hc : redealCond t = true)
    (h : redealCheck t = some u) :
    u.deals_done = t.deals_done + 1 ∧
    u.hand1.length = t.hand1.length + 4 ∧
    u.hand2.length = t.hand2.length + 4 := by
  unfold redealCheck at h
  rw [if_pos hc] at h
  rcases Option.bind_eq_some.mp h with ⟨p1, hp1, h2⟩
  rcases Option.map_eq_some'.mp h2 with ⟨p2, hp2, hu⟩
  subst hu
  obtain ⟨l1, _⟩ := deal_spec 4 t.deck p1 hp1
  obtain ⟨l2, _⟩ := deal_spec 4 p1.2 p2 hp2
  exact ⟨rfl, by simp [l1], by simp [l2]⟩

/-- A round is a trick followed by the re-deal check. -/
theorem playRound_eq_some {s : GameState} {ci cj : Nat} {s' : GameState} :
    playRound s ci cj = some s' ↔
      ∃ t, playTrick s ci cj = some t ∧ redealCheck t = some s' :=
  Option.bind_eq_some

/-- `playRound` increments the round counter by exactly one and keeps
the player names. -/
theorem playRound_fields {s : GameState} {ci cj : Nat} {s' : GameState}
    (h : playRound s ci cj = some s') :
    s'.name1 = s.name1 ∧ s'.name2 = s.name2 ∧
    s'.round_num = s.round_num + 1 := by
  rcases playRound_eq_some.mp h with ⟨t, ht, hr⟩
  obtain ⟨e1, e2, e3, _⟩ := playTrick_fields ht
  obtain ⟨f1, f2, f3, _, _⟩ := redealCheck_fields hr
  exact ⟨f1.trans e1, f2.trans e2, f3.trans e3⟩

/-- Within a round the re-deal counter stays or goes up by one, the
latter exactly when the re-deal guard held right after the trick. -/
theorem playRound_deals {s : GameState} {ci cj : Nat} {s' : GameState}
    (h : playRound s ci cj = some s') :
    s'.deals_done = s.deals_done ∨
      (s'.deals_done = s.deals_done + 1 ∧
        ∃ t, playTrick s ci cj = some t ∧ redealCond t = true) := by
  rcases playRound_eq_some.mp h with ⟨t, ht, hr⟩
  obtain ⟨_, _, _, e4⟩ := playTrick_fields ht
  cases hc : redealCond t with
  | false =>
    have := redealCheck_id hc
    rw [this] at hr
    injection hr with hr
    subst hr
    exact Or.inl e4
  | true =>
    obtain ⟨d1, _, _⟩ := redealCheck_redeal hc hr
    exact Or.inr ⟨by rw [d1, e4], t, ht, hc⟩

/-- The re-deal counter never exceeds 2 across a round. -/
theorem playRound_deals_le {s : GameState} {ci cj : Nat} {s' : GameState}
    (h : playRound s ci cj = some s') (hle : s.deals_done ≤ 2) :
    s'.deals_done ≤ 2 := by
  rcases playRound_deals h with h1 | ⟨h1, t, ht, hc⟩
  · omega
  · obtain ⟨_, _, _, e4⟩ := playTrick_fields ht
    have : t.deals_done < 2 := by
      simp [redealCond] at hc
      exact hc.2
    omega

/-- The loop guard fails exactly at the round cap or when the
early-termination predicate holds. -/
theorem gameLoopCond_eq_false_iff (s : GameState) :
    gameLoopCond s = false ↔
      16 ≤ s.round_num ∨
        early_termination (scoreP1 s) (scoreP2 s) = true := by
  unfold gameLoopCond
  cases h : early_termination (scoreP1 s) (scoreP2 s)
  · simp [Nat.not_lt]
  · simp

/-- Unfolding of `early_termination` into the spec's predicate. -/
theorem early_termination_iff (a b : Nat) :
    early_termination a b = true ↔ ((9 ≤ a ∧ 1 ≤ b) ∨ (9 ≤ b ∧ 1 ≤ a)) := by
  simp [early_termination]

/-- A state failing the guard is returned unchanged, zero rounds
played. -/
theorem runLoop_stop (s : GameState) (cs : List (Nat × Nat))
    (h : gameLoopCond s = false) : runLoop s cs = some (s, 0) := by
  cases cs with
  | nil => simp [runLoop, h]
  | cons c rest => obtain ⟨ci, cj⟩ := c; simp [runLoop, h]

/-- When the guard holds, at least one round is played before the loop
can return. -/
theorem runLoop_pos {s : GameState} {cs : List (Nat × Nat)}
    {t : GameState} {k : Nat} (hg : gameLoopCond s = true)
    (h : runLoop s cs = some (t, k)) : 0 < k := by
  cases cs with
  | nil => rw [runLoop, if_pos hg] at h; cases h
  | cons c rest =>
    obtain ⟨ci, cj⟩ := c
    rw [runLoop, if_pos hg] at h
    split at h
    · cases h
    · split at h
      · cases h
      · next t' k' hrec =>
        injection h with h
        have h2 : k' + 1 = k := congrArg Prod.snd h
        omega

/-- The loop only returns states failing the guard. -/
theorem runLoop_final_cond :
    ∀ (cs : List (Nat × Nat)) (s t : GameState) (k : Nat),
      runLoop s cs = some (t, k) → gameLoopCond t = false := by
  intro cs
  induction cs with
  | nil =>
    intro s t k h
    unfold runLoop at h
    split at h
    · cases h
    · next hg =>
      injection h with h
      have h1 : s = t := congrArg Prod.fst h
      subst h1
      exact Bool.not_eq_true _ ▸ hg
  | cons c rest ih =>
    intro s t k h
    obtain ⟨ci, cj⟩ := c
    unfold runLoop at h
    split at h
    · next hg =>
      split at h
      · cases h
      · next s' hs' =>
        split at h
        · cases h
        · next t' k' hrec =>
          injection h with h
          have h1 : t' = t := congrArg Prod.fst h
          exact h1 ▸ ih s' t' k' hrec
    · next hg =>
      injection h with h
      have h1 : s = t := congrArg Prod.fst h
      subst h1
      exact Bool.not_eq_true _ ▸ hg

/-- The number of rounds played is the round-counter increase. -/
theorem runLoop_round_num :
    ∀ (cs : List (Nat × Nat)) (s t : GameState) (k : Nat),
      runLoop s cs = some (t, k) → t.round_num = s.round_num + k := by
  intro cs
  induction cs with
  | nil =>
    intro s t k h
    unfold runLoop at h
    split at h
    · cases h
    · injection h with h
      have h1 : s = t := congrArg Prod.fst h
      have h2 : (0 : Nat) = k := congrArg Prod.snd h
      subst h1
      omega
  | cons c rest ih =>
    intro s t k h
    obtain ⟨ci, cj⟩ := c
    unfold runLoop at h
    split at h
    · split at h
      · cases h
      · next s' hs' =>
        split at h
        · cases h
        · next t' k' hrec =>
          injection h with h
          have h1 : t' = t := congrArg Prod.fst h
          have h2 : k' + 1 = k := congrArg Prod.snd h
          have h3 := ih s' t' k' hrec
          have h4 := (playRound_fields hs').2.2
          rw [← h1]
          omega
    · injection h with h
      have h1 : s = t := congrArg Prod.fst h
      have h2 : (0 : Nat) = k := congrArg Prod.snd h
      subst h1
      omega

/-- Every state the loop returns has a round counter at most 16 (or the
counter it started with, when the loop never ran). -/
theorem runLoop_round_le :
    ∀ (cs : List (Nat × Nat)) (s t : GameState) (k : Nat),
      runLoop s cs = some (t, k) →
        t.round_num ≤ 16 ∨ t.round_num ≤ s.round_num := by
  intro cs
  induction cs with
  | nil =>
    intro s t k h
    unfold runLoop at h
    split at h
    · cases h
    · injection h with h
      have h1 : s = t := congrArg Prod.fst h
      subst h1
      exact Or.inr le_rfl
  | cons c rest ih =>
    intro s t k h
    obtain ⟨ci, cj⟩ := c
    unfold runLoop at h
    split at h
    · next hg =>
      split at h
      · cases h
      · next s' hs' =>
        split at h
        · cases h
        · next t' k' hrec =>
          injection h with h
          have h1 : t' = t := congrArg Prod.fst h
          have hlt : s.round_num < 16 := by
            simp [gameLoopCond] at hg
            exact hg.1
          have h4 := (playRound_fields hs').2.2
          rw [← h1]
          rcases ih s' t' k' hrec with h5 | h5
          · left; omega
          · left; omega
    · injection h with h
      have h1 : s = t := congrArg Prod.fst h
      subst h1
      exact Or.inr le_rfl

/-- The re-deal counter never exceeds 2 across the whole loop. -/
theorem runLoop_deals_le :
    ∀ (cs : List (Nat × Nat)) (s t : GameState) (k : Nat),
      runLoop s cs = some (t, k) → s.deals_done ≤ 2 → t.deals_done ≤ 2 := by
  intro cs
  induction cs with
  | nil =>
    intro s t k h hle
    unfold runLoop at h
    split at h
    · cases h
    · injection h with h
      have h1 : s = t := congrArg Prod.fst h
      subst h1
      exact hle
  | cons c rest ih =>
    intro s t k h hle
    obtain ⟨ci, cj⟩ := c
    unfold runLoop at h
    split at h
    · split at h
      · cases h
      · next s' hs' =>
        split at h
        · cases h
        · next t' k' hrec =>
          injection h with h
          have h1 : t' = t := congrArg Prod.fst h
          exact h1 ▸ ih s' t' k' hrec (playRound_deals_le hs' hle)
    · injection h with h
      have h1 : s = t := congrArg Prod.fst h
      subst h1
      exact hle

/-- Looking up the single key of a one-entry dict. -/
theorem dictGet_single (n : String) (m : Nat) : dictGet [(n, m)] n = m := by
  simp [dictGet, List.find?]

/-- Incrementing the single key of a one-entry dict. -/
theorem dictIncr_single (n : String) (m : Nat) :
    dictIncr [(n, m)] n = [(n, m + 1)] := by
  simp [dictIncr, dictGet, dictInsert, List.find?]

/-- The score dict built from two equal names has a single entry. -/
theorem initScore_same (n : String) : initScore n n = [(n, 0)] := by
  simp [initScore, dictInsert]

/-! ## Claim theorems -/

/-- C2 counterexample: the Queen of Hearts has value 12, not 14, so the
spec's "values 14 > 8" scenario reading is false on the code (the code's
own comment "Map '2'->2 through 'Ace'->14" also disagrees with the
`enumerate`-based map, which tops out at Ace = 13). -/
theorem C2_counterexample :
    (Card.mk Suit.Hearts Rank.Queen).value = 12 ∧
    ¬ (Card.mk Suit.Hearts Rank.Queen).value = 14 := by decide

/-- C2 amended: `value` is a pure function of `rank`, lies in 2..13
(hence within the claimed 2..14 interval), is strictly monotonic with
rank over the 12 ranks, and in the spec's scenario the Queen of Hearts
beats the led 8 of Hearts with values 12 > 8 (not 14 > 8). -/
theorem C2_amended :
    (∀ c : Card, c.value = VALUE_MAP c.rank) ∧
    (∀ c : Card, 2 ≤ c.value ∧ c.value ≤ 13) ∧
    (∀ r r' : Rank, rankIndex r < rankIndex r' → VALUE_MAP r < VALUE_MAP r') ∧
    (∀ {P : Type} (lp fp : P),
      determine_winner lp (Card.mk Suit.Hearts Rank.R8) fp
        (Card.mk Suit.Hearts Rank.Queen) = fp) ∧
    (Card.mk Suit.Hearts Rank.Queen).value = 12 ∧
    (Card.mk Suit.Hearts Rank.R8).value = 8 := by
  refine ⟨fun c => rfl, fun c => ?_, fun r r' h => ?_, fun lp fp => rfl,
    rfl, rfl⟩
  · have hb : ∀ r : Rank, rankIndex r ≤ 11 := by
      intro r; cases r <;> decide
    have hv : c.value = rankIndex c.rank + 2 := rfl
    have := hb c.rank
    omega
  · simpa [VALUE_MAP] using h

/-- C2 witness: strict monotonicity applied at 8 < Queen. -/
theorem C2_witness : VALUE_MAP Rank.R8 < VALUE_MAP Rank.Queen :=
  C2_amended.2.2.1 Rank.R8 Rank.Queen (by decide)

/-- C3: `determine_winner` is a pure function of the two cards and the
two player values; on-suit follows are decided by strictly greater
value, off-suit follows always lose to the leader. -/
theorem C3_determine_winner {P : Type} (lp fp : P) (lc fc : Card) :
    (fc.suit = lc.suit → fc.value > lc.value →
      determine_winner lp lc fp fc = fp) ∧
    (fc.suit = lc.suit → lc.value > fc.value →
      determine_winner lp lc fp fc = lp) ∧
    (fc.suit ≠ lc.suit → determine_winner lp lc fp fc = lp) := by
  refine ⟨fun hs hv => ?_, fun hs hv => ?_, fun hs => ?_⟩
  · simp [determine_winner, hs, hv]
  · simp only [determine_winner, if_pos hs]
    rw [if_neg (by omega)]
  · simp [determine_winner, hs]

/-- C3 witness: an off-suit follow loses (Spade led, Heart answered),
and an on-suit higher follow wins (8 of Hearts led, Queen answered). -/
theorem C3_witness :
    determine_winner true (Card.mk Suit.Spades Rank.R2) false
      (Card.mk Suit.Hearts Rank.Ace) = true ∧
    determine_winner true (Card.mk Suit.Hearts Rank.R8) false
      (Card.mk Suit.Hearts Rank.Queen) = false :=
  ⟨(C3_determine_winner true false (Card.mk Suit.Spades Rank.R2)
      (Card.mk Suit.Hearts Rank.Ace)).2.2 (by decide),
   (C3_determine_winner true false (Card.mk Suit.Hearts Rank.R8)
      (Card.mk Suit.Hearts Rank.Queen)).1 rfl (by decide)⟩

/-- C9: with equal suits and equal values the strict comparison
`follow_card.value > lead_card.value` fails, so the leader takes the
trick. -/
theorem C9_tie_goes_to_leader {P : Type} (lp fp : P) (lc fc : Card)
    (hs : fc.suit = lc.suit) (hv : fc.value = lc.value) :
    determine_winner lp lc fp fc = lp := by
  simp only [determine_winner, if_pos hs]
  rw [if_neg (by omega)]

/-- C9 witness: two Queens of Hearts tie and the leader wins. -/
theorem C9_witness :
    determine_winner 1 (Card.mk Suit.Hearts Rank.Queen) 2
      (Card.mk Suit.Hearts Rank.Queen) = 1 :=
  C9_tie_goes_to_leader 1 2 (Card.mk Suit.Hearts Rank.Queen)
    (Card.mk Suit.Hearts Rank.Queen) rfl rfl

/-- C4: the follow-selection candidate set is the lead-suit subset of
the hand when that subset is non-empty and the whole hand otherwise;
hence whenever the hand holds a lead-suit card, any selectable follow
card matches the lead suit. -/
theorem C4_follow_candidates (hand : List Card) (s : Suit) :
    ((hand.filter fun c => decide (c.suit = s)) ≠ [] →
      followCandidates hand s = hand.filter fun c => decide (c.suit = s)) ∧
    ((hand.filter fun c => decide (c.suit = s)) = [] →
      followCandidates hand s = hand) ∧
    ((∃ c ∈ hand, c.suit = s) →
      ∀ i d, choose (followCandidates hand s) i = some d → d.suit = s) := by
  have hcand : (hand.filter fun c => decide (c.suit = s)) ≠ [] →
      followCandidates hand s = hand.filter fun c => decide (c.suit = s) := by
    intro h
    unfold followCandidates
    rw [if_neg (by simpa [List.isEmpty_iff] using h)]
  refine ⟨hcand, fun h => ?_, fun hex i d hch => ?_⟩
  · unfold followCandidates
    rw [if_pos (by simpa [List.isEmpty_iff] using h)]
  · obtain ⟨c, hc, hcs⟩ := hex
    have hne : (hand.filter fun x => decide (x.suit = s)) ≠ [] := by
      intro hnil
      have hmem : c ∈ hand.filter fun x => decide (x.suit = s) := by
        simp [List.mem_filter, hc, hcs]
      rw [hnil] at hmem
      cases hmem
    rw [hcand hne] at hch
    have hmem := List.mem_filter.mp (choose_mem hch)
    simpa using hmem.2

/-- C4 witness: a hand holding a Club must answer a Club lead with its
Club. -/
theorem C4_witness :
    (Card.mk Suit.Clubs Rank.R3).suit = Suit.Clubs :=
  (C4_follow_candidates
      [Card.mk Suit.Hearts Rank.R2, Card.mk Suit.Clubs Rank.R3]
      Suit.Clubs).2.2
    ⟨Card.mk Suit.Clubs Rank.R3, by decide, rfl⟩ 0
    (Card.mk Suit.Clubs Rank.R3) (by decide)

/-- C1 counterexample: at final scores 16-0 the report names the
zero-score second player as shooting the moon and prints "17-16", not
the first player winning "17-0" as the claim states. -/
theorem C1_counterexample :
    final_report "p1" "p2" 16 0 = "p2 shot the moon and wins 17-16!" ∧
    final_report "p1" "p2" 16 0 ≠ "p1 shot the moon and wins 17-0!" :=
  ⟨by decide, by decide⟩

/-- C1 amended: if one player's score is exactly 16 and the other's
exactly 0, the report names the player with score 0 as having shot the
moon, winning 17 to 16 (the literal `17-` followed by the opponent's
accumulated 16). -/
theorem C1_amended (n1 n2 : String) (s1 s2 : Nat) :
    (s1 = 0 ∧ s2 = 16 →
      final_report n1 n2 s1 s2 = n1 ++ " shot the moon and wins 17-16!") ∧
    (s2 = 0 ∧ s1 = 16 →
      final_report n1 n2 s1 s2 = n2 ++ " shot the moon and wins 17-16!") := by
  constructor
  · rintro ⟨rfl, rfl⟩
    unfold final_report
    rw [if_pos ⟨rfl, rfl⟩]
    exact congrArg (fun x => n1 ++ x) (by decide)
  · rintro ⟨rfl, rfl⟩
    unfold final_report
    rw [if_neg (by decide), if_pos ⟨rfl, rfl⟩]
    exact congrArg (fun x => n2 ++ x) (by decide)

/-- C1 witness: the 16-0 report instantiated at concrete names. -/
theorem C1_witness :
    final_report "p1" "p2" 16 0 = "p2" ++ " shot the moon and wins 17-16!" :=
  (C1_amended "p1" "p2" 16 0).2 ⟨rfl, rfl⟩

/-- C5: the game ends exactly when, checked at the top of each round
(one full `playRound` runs between consecutive checks), the round
counter has reached 16 or the early-termination predicate
`(s1 ≥ 9 ∧ s2 ≥ 1) ∨ (s2 ≥ 9 ∧ s1 ≥ 1)` holds on the current scores. -/
theorem C5_game_over (s : GameState) (cs : List (Nat × Nat)) (a b : Nat) :
    (early_termination a b = true ↔ ((9 ≤ a ∧ 1 ≤ b) ∨ (9 ≤ b ∧ 1 ≤ a))) ∧
    (gameLoopCond s = false ↔
      (16 ≤ s.round_num ∨ early_termination (scoreP1 s) (scoreP2 s) = true)) ∧
    (gameLoopCond s = true → ∀ ci cj rest,
      runLoop s ((ci, cj) :: rest) =
        (playRound s ci cj).bind fun s1 =>
          (runLoop s1 rest).map fun p => (p.1, p.2 + 1)) ∧
    (runLoop s cs = some (s, 0) ↔ gameLoopCond s = false) ∧
    (∀ t k, runLoop s cs = some (t, k) → gameLoopCond t = false) := by
  refine ⟨early_termination_iff a b, gameLoopCond_eq_false_iff s,
    fun hg ci cj rest => ?_, ⟨fun h => ?_, fun h => runLoop_stop s cs h⟩,
    fun t k h => runLoop_final_cond cs s t k h⟩
  · rw [runLoop, if_pos hg]
    cases playRound s ci cj with
    | none => rfl
    | some s1 =>
      simp only [Option.some_bind]
      cases runLoop s1 rest with
      | none => rfl
      | some p => obtain ⟨t, k⟩ := p; rfl
  · by_cases hg : gameLoopCond s = true
    · exact absurd (runLoop_pos hg h) (by omega)
    · exact Bool.not_eq_true _ ▸ hg

/-- A finished game state: 16 rounds already played. -/
def sEnd : GameState :=
  { name1 := "a", name2 := "b", hand1 := [], hand2 := [], deck := [],
    score := initScore "a" "b", leaderIs1 := true, deals_done := 2,
    round_num := 16 }

/-- C5 witness: the loop refuses to run a 17th round. -/
theorem C5_witness : gameLoopCond sEnd = false :=
  (C5_game_over sEnd [] 9 1).2.2.2.2 sEnd 0 (by decide)

/-- C7: `redealCheck` fires exactly when both hands hold 4 cards and
fewer than two re-deals happened; each firing adds 4 cards to each hand
and one to the counter, any other round leaves the state alone; along a
whole game the counter never passes 2, so at most two re-deals occur. -/
theorem C7_redeal (s : GameState) (cs : List (Nat × Nat)) :
    (∀ t u, redealCheck t = some u →
      (redealCond t = true →
        u.deals_done = t.deals_done + 1 ∧
        u.hand1.length = t.hand1.length + 4 ∧
        u.hand2.length = t.hand2.length + 4) ∧
      (redealCond t = false → u = t)) ∧
    (redealCond s = true ↔
      (s.hand1.length = 4 ∧ s.hand2.length = 4 ∧ s.deals_done < 2)) ∧
    (∀ u ci cj u', playRound u ci cj = some u' →
      u'.deals_done = u.deals_done ∨
        (u'.deals_done = u.deals_done + 1 ∧
          ∃ t, playTrick u ci cj = some t ∧ redealCond t = true)) ∧
    (∀ t k, runLoop s cs = some (t, k) → s.deals_done = 0 →
      t.deals_done ≤ 2) := by
  refine ⟨fun t u hu => ⟨fun hc => redealCheck_redeal hc hu, fun hc => ?_⟩,
    ?_, fun u ci cj u' h => playRound_deals h,
    fun t k h h0 => runLoop_deals_le cs s t k h (by omega)⟩
  · rw [redealCheck_id hc] at hu
    injection hu with hu
    exact hu.symm
  · simp [redealCond, and_assoc]

/-- A post-trick state with both hands at exactly 4 cards and a deck of
8 remaining cards. -/
def t0 : GameState :=
  { name1 := "a", name2 := "b"
    hand1 := [Card.mk Suit.Diamonds Rank.R2, Card.mk Suit.Diamonds Rank.R3,
              Card.mk Suit.Diamonds Rank.R4, Card.mk Suit.Diamonds Rank.R5]
    hand2 := [Card.mk Suit.Clubs Rank.R2, Card.mk Suit.Clubs Rank.R3,
              Card.mk Suit.Clubs Rank.R4, Card.mk Suit.Clubs Rank.R5]
    deck := [Card.mk Suit.Hearts Rank.R2, Card.mk Suit.Hearts Rank.R3,
             Card.mk Suit.Hearts Rank.R4, Card.mk Suit.Hearts Rank.R5,
             Card.mk Suit.Hearts Rank.R6, Card.mk Suit.Hearts Rank.R7,
             Card.mk Suit.Hearts Rank.R8, Card.mk Suit.Hearts Rank.R9]
    score := initScore "a" "b", leaderIs1 := true, deals_done := 0,
    round_num := 4 }

/-- The state `t0` after its re-deal. -/
def t0r : GameState := (redealCheck t0).getD t0

/-- C7 witness: the re-deal at `t0` adds 4 cards to each hand and one
to the counter. -/
theorem C7_witness :
    t0r.deals_done = t0.deals_done + 1 ∧
    t0r.hand1.length = t0.hand1.length + 4 ∧
    t0r.hand2.length = t0.hand2.length + 4 :=
  ((C7_redeal t0 []).1 t0 t0r (by decide)).1 (by decide)

/-- The round outcome without the deck: everything a round changes
except the revealed/remaining cards. -/
def stripDeck (t : GameState) :
    List Card × List Card × List (String × Nat) × Bool × Nat × Nat :=
  (t.hand1, t.hand2, t.score, t.leaderIs1, t.deals_done, t.round_num)

/-- C8: `draw` on a non-empty deck removes and returns exactly the last
card, shrinking the deck by one; on an empty deck it returns `none`;
and the reveal has no rule effect: the non-deck outcome of a trick is
the same with an empty deck as with the original one. -/
theorem C8_draw (d : List Card) (s : GameState) (ci cj : Nat) :
    (d ≠ [] →
      (draw d).1 = d.getLast? ∧ (draw d).2 = d.dropLast ∧
      (draw d).2.length + 1 = d.length ∧
      (draw d).2 ++ (draw d).1.toList = d) ∧
    draw ([] : List Card) = (none, []) ∧
    (playTrick { s with deck := [] } ci cj).map stripDeck =
      (playTrick s ci cj).map stripDeck := by
  refine ⟨fun hd => ?_, rfl, ?_⟩
  · have hl := List.getLast?_eq_getLast d hd
    unfold draw
    rw [hl]
    refine ⟨rfl, rfl, ?_, ?_⟩
    · have h1 : 1 ≤ d.length := List.length_pos.mpr hd
      rw [List.length_dropLast]
      omega
    · simpa using List.dropLast_append_getLast hd
  · have hl : leaderHand { s with deck := ([] : List Card) } = leaderHand s :=
      rfl
    have hf : followerHand { s with deck := ([] : List Card) } =
        followerHand s := rfl
    unfold playTrick
    simp only [hl, hf]
    cases hc1 : choose (leaderHand s) ci with
    | none => rfl
    | some lc =>
      simp only [Option.some_bind]
      cases hc2 : choose (followCandidates (followerHand s) lc.suit) cj with
      | none => rfl
      | some fc => rfl

/-- C8 witness: drawing from a one-card deck returns that card and
leaves the deck empty. -/
theorem C8_witness :
    (draw [Card.mk Suit.Hearts Rank.R2]).2 ++
      (draw [Card.mk Suit.Hearts Rank.R2]).1.toList =
      [Card.mk Suit.Hearts Rank.R2] :=
  ((C8_draw [Card.mk Suit.Hearts Rank.R2] sEnd 0 0).1 (by decide)).2.2.2

/-- C6 amended: from a fresh game the loop plays at most 16 rounds, the
round counter strictly increasing by one per round; it stops in fewer
than 16 rounds only with the early-termination predicate true at the
stopping boundary, and conversely the loop stops immediately at any
boundary where the predicate holds.  (The predicate can also first
become true exactly at the 16th boundary, where the game ends by the
round cap, not early — see the counterexample.) -/
theorem C6_amended (s : GameState) (cs : List (Nat × Nat)) (t : GameState)
    (k : Nat) (h : runLoop s cs = some (t, k)) (h0 : s.round_num = 0) :
    k ≤ 16 ∧ t.round_num = k ∧
    (∀ u ci cj u', playRound u ci cj = some u' →
      u'.round_num = u.round_num + 1) ∧
    (k < 16 → early_termination (scoreP1 t) (scoreP2 t) = true) ∧
    (∀ u ucs, early_termination (scoreP1 u) (scoreP2 u) = true →
      runLoop u ucs = some (u, 0)) := by
  have hrn := runLoop_round_num cs s t k h
  have hle := runLoop_round_le cs s t k h
  have htk : t.round_num = k := by omega
  have hk16 : k ≤ 16 := by rcases hle with h1 | h1 <;> omega
  refine ⟨hk16, htk, fun u ci cj u' hu => (playRound_fields hu).2.2,
    fun hk => ?_, fun u ucs hu => ?_⟩
  · have hc := runLoop_final_cond cs s t k h
    rcases (gameLoopCond_eq_false_iff t).mp hc with h16 | he
    · omega
    · exact he
  · apply runLoop_stop
    rw [gameLoopCond_eq_false_iff]
    exact Or.inr hu

/-- A full game: 48 distinct cards split into two 8-card hands and a
32-card deck.  Player 1 wins rounds 1-15 (the follower is either
off-suit or forced under the lead); player 2 takes round 16 with the
3 of Hearts over the led 2 of Hearts.  Both re-deals fire (after rounds
4 and 8) and the deck is emptied exactly at the end. -/
def g16 : GameState :=
  { name1 := "a", name2 := "b"
    hand1 := [Card.mk Suit.Spades Rank.Ace, Card.mk Suit.Spades Rank.Queen,
              Card.mk Suit.Spades Rank.Jack, Card.mk Suit.Spades Rank.R10,
              Card.mk Suit.Spades Rank.R9, Card.mk Suit.Spades Rank.R8,
              Card.mk Suit.Clubs Rank.Ace, Card.mk Suit.Clubs Rank.Queen]
    hand2 := [Card.mk Suit.Spades Rank.R2, Card.mk Suit.Spades Rank.R3,
              Card.mk Suit.Spades Rank.R4, Card.mk Suit.Spades Rank.R5,
              Card.mk Suit.Hearts Rank.R3, Card.mk Suit.Hearts Rank.R4,
              Card.mk Suit.Hearts Rank.R5, Card.mk Suit.Hearts Rank.R6]
    deck := [Card.mk Suit.Spades Rank.R7, Card.mk Suit.Spades Rank.R6,
             Card.mk Suit.Clubs Rank.R7, Card.mk Suit.Clubs Rank.R6,
             Card.mk Suit.Clubs Rank.R5, Card.mk Suit.Clubs Rank.R4,
             Card.mk Suit.Clubs Rank.R3, Card.mk Suit.Diamonds Rank.R10,
             Card.mk Suit.Hearts Rank.Ace, Card.mk Suit.Hearts Rank.Queen,
             Card.mk Suit.Hearts Rank.Jack, Card.mk Suit.Hearts Rank.R10,
             Card.mk Suit.Hearts Rank.R2, Card.mk Suit.Diamonds Rank.Jack,
             Card.mk Suit.Diamonds Rank.Queen, Card.mk Suit.Diamonds Rank.Ace,
             Card.mk Suit.Diamonds Rank.R9, Card.mk Suit.Diamonds Rank.R8,
             Card.mk Suit.Diamonds Rank.R7, Card.mk Suit.Diamonds Rank.R6,
             Card.mk Suit.Hearts Rank.R9, Card.mk Suit.Hearts Rank.R8,
             Card.mk Suit.Hearts Rank.R7, Card.mk Suit.Clubs Rank.R2,
             Card.mk Suit.Clubs Rank.R8, Card.mk Suit.Clubs Rank.R9,
             Card.mk Suit.Clubs Rank.R10, Card.mk Suit.Clubs Rank.Jack,
             Card.mk Suit.Diamonds Rank.R5, Card.mk Suit.Diamonds Rank.R4,
             Card.mk Suit.Diamonds Rank.R3, Card.mk Suit.Diamonds Rank.R2]
    score := initScore "a" "b"
    leaderIs1 := true
    deals_done := 0
    round_num := 0 }

/-- The per-round choice indices steering `g16` to a 15-1 finish. -/
def cs16 : List (Nat × Nat) :=
  [(0, 0), (0, 0), (0, 0), (0, 0), (0, 4), (0, 1), (0, 1), (0, 1),
   (0, 1), (0, 1), (0, 1), (0, 1), (0, 1), (0, 1), (0, 1), (0, 0)]

/-- C6 counterexample: a game from a fresh state that runs all 16
rounds (not fewer) yet ends with the early-termination predicate true
at its final round boundary (score 15-1), refuting "terminates in fewer
than 16 rounds iff the predicate holds at a round boundary". -/
theorem C6_counterexample :
    (runLoop g16 cs16).map (fun p => (p.2, scoreP1 p.1, scoreP2 p.1,
      early_termination (scoreP1 p.1) (scoreP2 p.1))) =
      some (16, 15, 1, true) ∧
    g16.round_num = 0 ∧ ¬ (16 < 16) :=
  ⟨by decide, rfl, by decide⟩

/-- A fresh-round state whose scores already satisfy the
early-termination predicate. -/
def sEarly : GameState :=
  { name1 := "a", name2 := "b", hand1 := [], hand2 := [], deck := [],
    score := [("a", 9), ("b", 1)], leaderIs1 := true, deals_done := 2,
    round_num := 0 }

/-- C6 witness: a loop run stopping at round 0 has the predicate true. -/
theorem C6_witness :
    early_termination (scoreP1 sEarly) (scoreP2 sEarly) = true :=
  (C6_amended sEarly [] sEarly 0 (by decide) rfl).2.2.2.1 (by decide)

/-- C10: with both players under one name `n`, the score dict built at
setup has the single entry `(n, 0)`, every completed round bumps that
shared entry by one so both players' reads agree at all times, and the
early-termination predicate on the shared counter is exactly "reached
9".  Two equal non-blank name inputs do resolve to the same name (blank
ones get distinct defaults). -/
theorem C10_shared_name (n : String) (m : Nat) (s t : GameState)
    (ci cj : Nat) (hn1 : s.name1 = n) (hn2 : s.name2 = n)
    (hs : s.score = [(n, m)]) (h : playRound s ci cj = some t) :
    (∀ i : String, i.trim ≠ "" →
      resolveName i "Player 1" = resolveName i "Player 2") ∧
    initScore n n = [(n, 0)] ∧
    t.score = [(n, m + 1)] ∧
    scoreP1 t = scoreP2 t ∧
    (early_termination (scoreP1 t) (scoreP2 t) = true ↔ 9 ≤ m + 1) := by
  have hts : t.score = [(n, m + 1)] := by
    rcases playRound_eq_some.mp h with ⟨u, hu, hr⟩
    obtain ⟨b, hb⟩ := playTrick_score hu
    have h5 := (redealCheck_fields hr).2.2.2.1
    rw [h5, hb, hn1, hn2, ite_self, hs, dictIncr_single]
  have htn1 : t.name1 = n := (playRound_fields h).1.trans hn1
  have htn2 : t.name2 = n := (playRound_fields h).2.1.trans hn2
  have hsp1 : scoreP1 t = m + 1 := by
    rw [scoreP1, htn1, hts, dictGet_single]
  have hsp2 : scoreP2 t = m + 1 := by
    rw [scoreP2, htn2, hts, dictGet_single]
  refine ⟨fun i hi => by simp [resolveName, hi], initScore_same n, hts,
    by rw [hsp1, hsp2], ?_⟩
  rw [hsp1, hsp2, early_termination_iff]
  omega

/-- A one-card-per-hand state with both players named "x" and the
shared score entry at 0. -/
def s10 : GameState :=
  { name1 := "x", name2 := "x",
    hand1 := [Card.mk Suit.Hearts Rank.R2],
    hand2 := [Card.mk Suit.Hearts Rank.R3],
    deck := [], score := [("x", 0)], leaderIs1 := true, deals_done := 2,
    round_num := 0 }

/-- The state `s10` after its one round. -/
def t10 : GameState := (playRound s10 0 0).getD s10

/-- C10 witness: one played round bumps the shared entry to 1 and both
players read the same score. -/
theorem C10_witness :
    t10.score = [("x", 1)] ∧ scoreP1 t10 = scoreP2 t10 :=
  ⟨(C10_shared_name "x" 0 s10 t10 0 0 rfl rfl rfl (by decide)).2.2.1,
   (C10_shared_name "x" 0 s10 t10 0 0 rfl rfl rfl (by decide)).2.2.2.1⟩

end TricksyBattle
